import Mathlib

/-!
Verification of the lane-state aggregation and signal-scheduling core of the
multi-camera traffic system.  The Python sources `multi_camera_processor.py`
and `main.py` are shallowly embedded: Python dicts become insertion-ordered
association lists, the scheduler loop body becomes the pure step function
`Traffic.tick` on an explicit `SchedulerState`, and the per-vehicle violation
check of `process_camera` becomes `Traffic.processVehicle` on a `LaneState`,
with fallible collaborator calls modelled by `Except` / explicit outcome flags.
-/

namespace Traffic

/-- Signal colors stored in the shared `traffic_lights` table
(`"RED"` / `"GREEN"` strings in the source). -/
inductive SignalColor
  | RED
  | GREEN
deriving DecidableEq, Repr

/-- Camera / lane identifiers (`cam_id` strings such as `"CAM1"`). -/
abbrev Lane := String

/-- Python `m.get(k, d)` on a dict modelled as an insertion-ordered
association list. -/
def getD {α β : Type} [DecidableEq α] : List (α × β) → α → β → β
  | [], _, d => d
  | (k, v) :: m, a, d => if k = a then v else getD m a d

/-- Python `m.get(k)`: `some` value of the first binding of the key, or
`none` when the key is absent. -/
def lookupA {α β : Type} [DecidableEq α] : List (α × β) → α → Option β
  | [], _ => none
  | (k, v) :: m, a => if k = a then some v else lookupA m a

/-- Python `m[k] = v` on a dict: overwrite in place when the key is present,
append a fresh binding otherwise. -/
def setA {α β : Type} [DecidableEq α] : List (α × β) → α → β → List (α × β)
  | [], a, b => [(a, b)]
  | (k, v) :: m, a, b => if k = a then (a, b) :: m else (k, v) :: setA m a b

/-- `list(m.keys())` in iteration order. -/
def keys {α β : Type} (m : List (α × β)) : List α := m.map Prod.fst

/-- `LOW_TRAFFIC_THRESHOLD = 2` in `multi_camera_processor.py`. -/
def LOW_TRAFFIC_THRESHOLD : Nat := 2

/-- `WAIT_LIMIT = 3` in `multi_camera_processor.py`. -/
def WAIT_LIMIT : Nat := 3

/-- `EMERGENCY_HOLD_TIME = 20` seconds (same constant is duplicated in
`main.py`).  Time is modelled in whole seconds as `Int`. -/
def EMERGENCY_HOLD_TIME : Int := 20

/-- The module-level mutable state of `multi_camera_processor.py` that the
scheduler loop `update_traffic_signals` and `override_signal` read and write:
`traffic_lights`, `vehicle_counts`, `lane_cycle`, `current_index`,
`lane_priority` (a `defaultdict(int)`, so lookups default to `0`), and the
three fields of the `emergency_override` dict. -/
structure SchedulerState where
  traffic_lights : List (Lane × SignalColor)
  vehicle_counts : List (Lane × Nat)
  lane_cycle : List Lane
  current_index : Nat
  lane_priority : List (Lane × Nat)
  em_active : Bool
  em_cam : Option Lane
  em_timestamp : Int
deriving DecidableEq, Repr

/-- Module-initial values of the scheduler globals: empty dicts, empty cycle,
index 0, inactive override. -/
def initSched : SchedulerState :=
  { traffic_lights := []
    vehicle_counts := []
    lane_cycle := []
    current_index := 0
    lane_priority := []
    em_active := false
    em_cam := none
    em_timestamp := 0 }

/-- `for cam in traffic_lights: traffic_lights[cam] = "RED"`. -/
def allRed (m : List (Lane × SignalColor)) : List (Lane × SignalColor) :=
  m.map fun p => (p.1, SignalColor.RED)

/-- `override_signal(cam_id)` (`multi_camera_processor.py`, lines 52-60):
set every configured signal RED, the given camera GREEN, and record the
activation in `emergency_override`. -/
def override_signal (st : SchedulerState) (cam : Lane) (now : Int) : SchedulerState :=
  { st with
    traffic_lights := setA (allRed st.traffic_lights) cam SignalColor.GREEN
    em_active := true
    em_cam := some cam
    em_timestamp := now }

/-- Python `set(a) != set(b)` negated: the two lane lists contain the same
elements. -/
def sameSet (a b : List Lane) : Bool :=
  a.all (fun x => decide (x ∈ b)) && b.all (fun x => decide (x ∈ a))

/-- Tail of Python `max(counts, key=counts.get)`: keep the current best key,
replace it only on a strictly larger value (so ties keep the
first-encountered key). -/
def argmaxGo (best : Lane) (bestV : Nat) : List (Lane × Nat) → Lane
  | [] => best
  | (k, v) :: rest => if bestV < v then argmaxGo k v rest else argmaxGo best bestV rest

/-- Python `max(counts, key=counts.get)` over the dict's iteration order.
The empty case never arises (the scheduler guards on a non-empty dict);
Python would raise there, the model returns `""`. -/
def argmaxCounts : List (Lane × Nat) → Lane
  | [] => ""
  | (k, v) :: rest => argmaxGo k v rest

/-- `for cam in lanes: traffic_lights[cam] = "GREEN" if cam == selected_cam
else "RED"` (lines 244-246). -/
def setColors (tl : List (Lane × SignalColor)) (lanes : List Lane) (sel : Lane) :
    List (Lane × SignalColor) :=
  lanes.foldl (fun m cam => setA m cam (if cam = sel then SignalColor.GREEN else SignalColor.RED)) tl

/-- Priority-counter update of the high-traffic branch (lines 237-242):
`lane_priority[selected] = 0`, every other lane `+= 1`. -/
def updatePriorities (prio : List (Lane × Nat)) (lanes : List Lane) (sel : Lane) :
    List (Lane × Nat) :=
  lanes.foldl
    (fun m cam => if cam = sel then setA m cam 0 else setA m cam (getD m cam 0 + 1)) prio

/-- `if not lane_cycle or set(lane_cycle) != set(lanes)` (line 209). -/
def rebuild (st : SchedulerState) : Bool :=
  st.lane_cycle.isEmpty || !(sameSet st.lane_cycle (keys st.vehicle_counts))

/-- Lines 209-212: on a lane-set change, rebuild the cycle, reset the cyclic
index, and clear all priority counters. -/
def rebuildCycle (st : SchedulerState) : SchedulerState :=
  if rebuild st then
    { st with lane_cycle := keys st.vehicle_counts, current_index := 0, lane_priority := [] }
  else st

/-- `all(count < LOW_TRAFFIC_THRESHOLD for count in counts.values())`
(line 215). -/
def allLow (st : SchedulerState) : Bool :=
  st.vehicle_counts.all fun p => decide (p.2 < LOW_TRAFFIC_THRESHOLD)

/-- Fairness scan (lines 223-227): the first lane, in dict iteration order,
whose priority counter has reached `WAIT_LIMIT`. -/
def fairnessLane (st : SchedulerState) : Option Lane :=
  (keys st.vehicle_counts).find? fun cam => decide (WAIT_LIMIT ≤ getD st.lane_priority cam 0)

/-- Selected lane of the high-traffic branch (lines 222-235): the fairness
lane when one exists, otherwise the maximum-occupancy lane. -/
def selHigh (st : SchedulerState) : Lane :=
  match fairnessLane st with
  | some cam => cam
  | none => argmaxCounts st.vehicle_counts

/-- Selected lane of the low-traffic round-robin branch (line 217):
`lane_cycle[current_index % len(lane_cycle)]`. -/
def selLow (st : SchedulerState) : Lane :=
  st.lane_cycle.getD (st.current_index % st.lane_cycle.length) ""

/-- The non-emergency part of one iteration of `update_traffic_signals`
(lines 201-246): idle when no counts have been published yet, otherwise
rebuild the cycle if the lane set changed, pick a lane by
round-robin / fairness / density, update the priority counters as the
source does in each branch, and write the new colors. -/
def tickNormal (st : SchedulerState) : SchedulerState :=
  if st.vehicle_counts.isEmpty then st
  else
    let st1 := rebuildCycle st
    let lanes := keys st1.vehicle_counts
    if allLow st1 then
      let selected := selLow st1
      { st1 with
        current_index := st1.current_index + 1
        lane_priority := setA st1.lane_priority selected 0
        traffic_lights := setColors st1.traffic_lights lanes selected }
    else
      let selected := selHigh st1
      { st1 with
        lane_priority := updatePriorities st1.lane_priority lanes selected
        traffic_lights := setColors st1.traffic_lights lanes selected }

/-- One full iteration of the `update_traffic_signals` loop body
(lines 184-248) at wall-clock time `now`: while the emergency override is
active and within its hold time, force the override camera GREEN and
everything else RED and do nothing else; once the hold time has elapsed,
clear the override and fall through to normal selection in the same
iteration.  (`cam_id` is `None` only while the override is inactive:
`override_signal` always stores a camera.) -/
def tick (st : SchedulerState) (now : Int) : SchedulerState :=
  if st.em_active then
    if now - st.em_timestamp < EMERGENCY_HOLD_TIME then
      match st.em_cam with
      | some cam =>
        { st with traffic_lights := setA (allRed st.traffic_lights) cam SignalColor.GREEN }
      | none => { st with traffic_lights := allRed st.traffic_lights }
    else
      tickNormal { st with em_active := false, em_cam := none }
  else
    tickNormal st

/-- Keys of the `traffic_lights` dict whose color is GREEN. -/
def isGreen : SignalColor → Bool
  | SignalColor.RED => false
  | SignalColor.GREEN => true

/-- The lanes currently showing GREEN, in table order. -/
def greenKeys (m : List (Lane × SignalColor)) : List Lane :=
  (m.filter fun p => isGreen p.2).map Prod.fst

/-- The per-camera worker state touched by the violation check of
`process_camera`: `vehicle_last_positions[cam_id]` (vehicle id → last bottom-y,
integer pixels) and `violated_ids[cam_id]` (set of already-flagged ids,
modelled as a duplicate-free insertion-ordered list). -/
structure LaneState where
  last_positions : List (Int × Int)
  violated : List Int
deriving DecidableEq, Repr

/-- Python `set.add`: insert if absent. -/
def addId (s : List Int) (v : Int) : List Int := if v ∈ s then s else s ++ [v]

/-- The per-tracked-vehicle body of `process_camera` (lines 120-140) for one
vehicle `vid` whose bounding-box bottom edge is at `cy`:  read the last
position with default `cy` (line 126), store `cy` (line 127), and when the
crossing test, the RED-signal test (with absent color defaulting to RED,
line 131) and the not-yet-flagged test all pass, call the persistence sink
(snapshot write + `log_violation`).  `sinkOk` is the outcome of that external
call; the source wraps it in no `try`, so a sink failure raises before
`violated_ids[cam_id].add(vehicle_id)` runs — modelled as `Except.error`
carrying the state at the point of the raise.  On the `ok` path the `Bool`
reports whether a violation was logged. -/
def processVehicle (lights : List (Lane × SignalColor)) (cam : Lane) (crossing_y : Int)
    (st : LaneState) (vid cy : Int) (sinkOk : Bool) :
    Except LaneState (LaneState × Bool) :=
  let last_y := getD st.last_positions vid cy
  let st1 : LaneState := ⟨setA st.last_positions vid cy, st.violated⟩
  if last_y < crossing_y ∧ crossing_y ≤ cy then
    if getD lights cam SignalColor.RED = SignalColor.RED ∧ vid ∉ st.violated then
      if sinkOk then Except.ok (⟨st1.last_positions, addId st1.violated vid⟩, true)
      else Except.error st1
    else Except.ok (st1, false)
  else Except.ok (st1, false)

/-- Whether the violation branch fires for this vehicle this frame (observed
on the successful-sink path). -/
def fires (lights : List (Lane × SignalColor)) (cam : Lane) (crossing_y : Int)
    (st : LaneState) (vid cy : Int) : Bool :=
  match processVehicle lights cam crossing_y st vid cy true with
  | Except.ok (_, b) => b
  | Except.error _ => false

/-- Run the worker's violation check over a sequence of tracked-vehicle
observations `(traffic_lights snapshot, vehicle id, bottom y, sink outcome)`,
in frame order, returning the final lane state and the list of vehicle ids
for which a violation was logged.  An uncaught sink exception terminates the
worker thread, so processing stops there. -/
def runVehicles (cam : Lane) (crossing_y : Int) :
    LaneState → List (List (Lane × SignalColor) × Int × Int × Bool) → LaneState × List Int
  | st, [] => (st, [])
  | st, (lights, vid, cy, sinkOk) :: rest =>
    match processVehicle lights cam crossing_y st vid cy sinkOk with
    | Except.ok (st', fired) =>
      let r := runVehicles cam crossing_y st' rest
      (r.1, (if fired then [vid] else []) ++ r.2)
    | Except.error st' => (st', [])

/-- Occurrences of a vehicle id in a list of logged-violation events. -/
def countId (l : List Int) (v : Int) : Nat := (l.filter fun x => decide (x = v)).length

/-- A tracked object as built on lines 108-111: integer track id and
bounding box. -/
structure TrackedObj where
  id : Int
  bbox : Int × Int × Int × Int
deriving DecidableEq, Repr

/-- Lines 95-114 of `process_camera`: with no detections the tracker is not
called and the frame has no tracked objects; otherwise the tracker update is
wrapped in `try`/`except`, and any tracker failure is caught and turns into
an empty tracked-object list (the worker keeps running). -/
def trackedObjectsOf (detections : List (Int × Int × Int × Int × Int))
    (trackerResult : Except String (List TrackedObj)) : List TrackedObj :=
  if detections.isEmpty then []
  else
    match trackerResult with
    | Except.ok tracked => tracked
    | Except.error _ => []

/-- Line 148: `vehicle_counts[cam_id] = len(tracked_objects)` — a full
replace of the lane's occupancy. -/
def publishCount (vehicle_counts : List (Lane × Nat)) (cam : Lane)
    (tracked_objects : List TrackedObj) : List (Lane × Nat) :=
  setA vehicle_counts cam tracked_objects.length

/-- The shape of the `emergency_override` dicts: `multi_camera_processor.py`
lines 46-50 and, separately, `main.py` lines 25-29 — `main.py` defines its
own dict of this shape instead of importing the processor's. -/
structure OverrideRecord where
  active : Bool
  cam_id : Option Lane
  timestamp : Int
deriving DecidableEq, Repr

/-- The initial (and, since nothing ever writes it, permanent) value of
`main.py`'s module-level `emergency_override`. -/
def apiInitOverride : OverrideRecord := ⟨false, none, 0⟩

/-- Response of the `/api/emergency-status` endpoint. -/
structure EmStatus where
  active : Bool
  cam_id : Option Lane
  remaining_time : Int
deriving DecidableEq, Repr

/-- `get_emergency_status` (`main.py`, lines 65-71), reading an override
record at wall-clock time `now`:
`max(0, EMERGENCY_HOLD_TIME - int(now - timestamp))` while active, else 0. -/
def get_emergency_status (o : OverrideRecord) (now : Int) : EmStatus :=
  { active := o.active
    cam_id := o.cam_id
    remaining_time :=
      if o.active then max 0 (EMERGENCY_HOLD_TIME - (now - o.timestamp)) else 0 }

/-- The whole-process state relevant to the status query: the processor
module's globals and `main.py`'s own, distinct, `emergency_override` dict
(the import on `main.py` line 7 brings in only functions, so the two dicts
are different objects). -/
structure SystemState where
  sched : SchedulerState
  api_override : OverrideRecord
deriving DecidableEq, Repr

/-- A CameraWorker's emergency activation as seen at process level:
`override_signal` mutates `multi_camera_processor.emergency_override`;
`main.py`'s record is untouched. -/
def sys_override_signal (s : SystemState) (cam : Lane) (now : Int) : SystemState :=
  { s with sched := override_signal s.sched cam now }

/-- Process state at startup: processor globals at module-initial values and
`main.py`'s override record at its literal initial value. -/
def initSystem : SystemState := ⟨initSched, apiInitOverride⟩

/-- Scheduler state used to refute C2: both lanes idle (counts below
`LOW_TRAFFIC_THRESHOLD`), lane `B` starved to `WAIT_LIMIT`, round-robin
index about to pick `A`. -/
def c2State : SchedulerState :=
  { traffic_lights := [("A", SignalColor.RED), ("B", SignalColor.GREEN)]
    vehicle_counts := [("A", 0), ("B", 0)]
    lane_cycle := ["A", "B"]
    current_index := 0
    lane_priority := [("B", 3)]
    em_active := false
    em_cam := none
    em_timestamp := 0 }

/-- Scheduler state used to refute C3: low traffic in every lane, lane `B`
with a positive wait counter. -/
def c3State : SchedulerState :=
  { traffic_lights := [("A", SignalColor.GREEN), ("B", SignalColor.RED)]
    vehicle_counts := [("A", 0), ("B", 1)]
    lane_cycle := ["A", "B"]
    current_index := 0
    lane_priority := [("B", 1)]
    em_active := false
    em_cam := none
    em_timestamp := 0 }

/-- Concrete scheduler state for witness instantiations: two configured
lanes, one busy, coherent cycle, no emergency. -/
def wSched : SchedulerState :=
  { traffic_lights := [("CAM1", SignalColor.GREEN), ("CAM2", SignalColor.RED)]
    vehicle_counts := [("CAM1", 1), ("CAM2", 5)]
    lane_cycle := ["CAM1", "CAM2"]
    current_index := 0
    lane_priority := [("CAM2", 3)]
    em_active := false
    em_cam := none
    em_timestamp := 0 }

/-- Concrete scheduler state with an active emergency override on `CAM2`,
activated at time 100. -/
def wEmSched : SchedulerState :=
  { traffic_lights := [("CAM1", SignalColor.GREEN), ("CAM2", SignalColor.RED)]
    vehicle_counts := [("CAM1", 1), ("CAM2", 5)]
    lane_cycle := ["CAM1", "CAM2"]
    current_index := 0
    lane_priority := [("CAM2", 1)]
    em_active := true
    em_cam := some "CAM2"
    em_timestamp := 100 }

/-- Concrete lane state for worker witnesses: vehicle 7 last seen at y = 10,
nothing flagged yet. -/
def wLane : LaneState := ⟨[(7, 10)], []⟩

theorem getD_setA_self {α β : Type} [DecidableEq α] (m : List (α × β)) (a : α) (b d : β) :
    getD (setA m a b) a d = b := by
  induction m with
  | nil => simp [setA, getD]
  | cons kv m ih =>
    obtain ⟨k, v⟩ := kv
    by_cases h : k = a
    · simp [setA, getD, h]
    · simp [setA, getD, h, ih]

theorem getD_setA_ne {α β : Type} [DecidableEq α] (m : List (α × β)) {a c : α} (b d : β)
    (h : a ≠ c) : getD (setA m a b) c d = getD m c d := by
  induction m with
  | nil => simp [setA, getD, h]
  | cons kv m ih =>
    obtain ⟨k, v⟩ := kv
    by_cases hk : k = a
    · subst hk
      simp [setA, getD, h]
    · by_cases hc : k = c
      · simp [setA, getD, hk, hc, Ne.symm h]
      · simp [setA, getD, hk, hc, ih]

theorem lookupA_setA_self {α β : Type} [DecidableEq α] (m : List (α × β)) (a : α) (b : β) :
    lookupA (setA m a b) a = some b := by
  induction m with
  | nil => simp [setA, lookupA]
  | cons kv m ih =>
    obtain ⟨k, v⟩ := kv
    by_cases h : k = a
    · simp [setA, lookupA, h]
    · simp [setA, lookupA, h, ih]

theorem lookupA_setA_ne {α β : Type} [DecidableEq α] (m : List (α × β)) {a c : α} (b : β)
    (h : a ≠ c) : lookupA (setA m a b) c = lookupA m c := by
  induction m with
  | nil => simp [setA, lookupA, h]
  | cons kv m ih =>
    obtain ⟨k, v⟩ := kv
    by_cases hk : k = a
    · subst hk
      simp [setA, lookupA, h]
    · by_cases hc : k = c
      · simp [setA, lookupA, hk, hc, Ne.symm h]
      · simp [setA, lookupA, hk, hc, ih]

theorem getD_eq_of_lookupA {α β : Type} [DecidableEq α] {m : List (α × β)} {a : α} {b : β}
    (d : β) (h : lookupA m a = some b) : getD m a d = b := by
  induction m with
  | nil => simp [lookupA] at h
  | cons kv m ih =>
    obtain ⟨k, v⟩ := kv
    by_cases hk : k = a
    · simp [lookupA, hk] at h
      simp [getD, hk, h]
    · simp [lookupA, hk] at h
      simp [getD, hk, ih h]

theorem getD_of_lookupA_none {α β : Type} [DecidableEq α] {m : List (α × β)} {a : α}
    (d : β) (h : lookupA m a = none) : getD m a d = d := by
  induction m with
  | nil => simp [getD]
  | cons kv m ih =>
    obtain ⟨k, v⟩ := kv
    by_cases hk : k = a
    · simp [lookupA, hk] at h
    · simp [lookupA, hk] at h
      simp [getD, hk, ih h]

theorem mem_keys_of_lookupA {α β : Type} [DecidableEq α] {m : List (α × β)} {a : α} {b : β}
    (h : lookupA m a = some b) : a ∈ keys m := by
  induction m with
  | nil => simp [lookupA] at h
  | cons kv m ih =>
    obtain ⟨k, v⟩ := kv
    by_cases hk : k = a
    · simp [keys, hk]
    · simp [lookupA, hk] at h
      simp [keys] at ih ⊢
      exact Or.inr (ih h)

theorem mem_keys_setA {α β : Type} [DecidableEq α] (m : List (α × β)) (a c : α) (b : β) :
    c ∈ keys (setA m a b) ↔ c = a ∨ c ∈ keys m := by
  induction m with
  | nil => simp [setA, keys]
  | cons kv m ih =>
    obtain ⟨k, v⟩ := kv
    by_cases hk : k = a
    · subst hk
      simp only [setA, if_pos rfl]
      simp [keys]
    · simp only [setA, if_neg hk]
      simp only [keys, List.map_cons] at ih ⊢
      simp [ih]
      tauto

theorem nodup_keys_setA {α β : Type} [DecidableEq α] {m : List (α × β)} (a : α) (b : β)
    (h : (keys m).Nodup) : (keys (setA m a b)).Nodup := by
  induction m with
  | nil => simp [setA, keys]
  | cons kv m ih =>
    obtain ⟨k, v⟩ := kv
    rw [show keys ((k, v) :: m) = k :: keys m from rfl, List.nodup_cons] at h
    by_cases hk : k = a
    · subst hk
      have hset : setA ((k, v) :: m) k b = (k, b) :: m := by simp [setA]
      rw [hset, show keys ((k, b) :: m) = k :: keys m from rfl, List.nodup_cons]
      exact h
    · simp only [setA, if_neg hk]
      rw [show keys ((k, v) :: setA m a b) = k :: keys (setA m a b) from rfl, List.nodup_cons]
      refine ⟨fun hmem => ?_, ih h.2⟩
      rcases (mem_keys_setA m a k b).1 hmem with h1 | h1
      · exact hk h1
      · exact h.1 h1

theorem mem_iff_lookupA {α β : Type} [DecidableEq α] {m : List (α × β)}
    (h : (keys m).Nodup) (p : α × β) : p ∈ m ↔ lookupA m p.1 = some p.2 := by
  induction m with
  | nil => simp [lookupA]
  | cons kv m ih =>
    obtain ⟨k, v⟩ := kv
    rw [show keys ((k, v) :: m) = k :: keys m from rfl, List.nodup_cons] at h
    by_cases hk : k = p.1
    · constructor
      · intro hmem
        rcases List.mem_cons.1 hmem with h1 | h1
        · subst h1
          simp [lookupA]
        · exfalso
          apply h.1
          rw [hk]
          exact List.mem_map.2 ⟨p, h1, rfl⟩
      · intro hl
        simp only [lookupA] at hl
        rw [if_pos hk] at hl
        injection hl with hv
        apply List.mem_cons.2
        left
        obtain ⟨p1, p2⟩ := p
        simp only at hk hv
        rw [← hk, ← hv]
    · constructor
      · intro hmem
        rcases List.mem_cons.1 hmem with h1 | h1
        · exfalso
          apply hk
          rw [h1]
        · have hl := (ih h.2).1 h1
          simp only [lookupA]
          rw [if_neg hk]
          exact hl
      · intro hl
        simp only [lookupA] at hl
        rw [if_neg hk] at hl
        exact List.mem_cons.2 (Or.inr ((ih h.2).2 hl))

theorem filter_green_allRed (m : List (Lane × SignalColor)) :
    (allRed m).filter (fun p => isGreen p.2) = [] := by
  induction m with
  | nil => simp [allRed]
  | cons kv m ih => simpa [allRed, isGreen] using ih

theorem filter_green_setA_green {m : List (Lane × SignalColor)} (a : Lane)
    (h : m.filter (fun p => isGreen p.2) = []) :
    (setA m a SignalColor.GREEN).filter (fun p => isGreen p.2) = [(a, SignalColor.GREEN)] := by
  induction m with
  | nil => simp [setA, isGreen]
  | cons kv m ih =>
    obtain ⟨k, v⟩ := kv
    simp only [List.filter_cons] at h
    by_cases hv : isGreen v = true
    · simp [hv] at h
    · simp only [hv] at h
      simp only [Bool.false_eq_true, if_false] at h
      by_cases hk : k = a
      · subst hk
        have hset : setA ((k, v) :: m) k SignalColor.GREEN = (k, SignalColor.GREEN) :: m := by
          simp [setA]
        rw [hset, List.filter_cons, h]
        simp [isGreen]
      · have hset : setA ((k, v) :: m) a SignalColor.GREEN
            = (k, v) :: setA m a SignalColor.GREEN := by simp [setA, hk]
        rw [hset, List.filter_cons, ih h]
        simp [hv]

theorem greenKeys_setA_allRed (m : List (Lane × SignalColor)) (a : Lane) :
    greenKeys (setA (allRed m) a SignalColor.GREEN) = [a] := by
  unfold greenKeys
  rw [filter_green_setA_green a (filter_green_allRed m)]
  simp

theorem greenKeys_of_pointwise {m : List (Lane × SignalColor)} {sel : Lane}
    (hnd : (keys m).Nodup) (hsel : lookupA m sel = some SignalColor.GREEN)
    (hall : ∀ p ∈ m, p.2 = if p.1 = sel then SignalColor.GREEN else SignalColor.RED) :
    greenKeys m = [sel] := by
  induction m with
  | nil => simp [lookupA] at hsel
  | cons kv m ih =>
    obtain ⟨k, v⟩ := kv
    rw [show keys ((k, v) :: m) = k :: keys m from rfl, List.nodup_cons] at hnd
    by_cases hk : k = sel
    · subst hk
      have hv : v = SignalColor.GREEN := by
        simpa [lookupA] using hsel
      subst hv
      have hrest : m.filter (fun p => isGreen p.2) = [] := by
        apply List.filter_eq_nil_iff.2
        intro p hp
        have hne : p.1 ≠ k := by
          intro heq
          exact hnd.1 (heq ▸ List.mem_map.2 ⟨p, hp, rfl⟩)
        have := hall p (List.mem_cons.2 (Or.inr hp))
        rw [if_neg hne] at this
        simp [this, isGreen]
      unfold greenKeys
      rw [List.filter_cons, hrest]
      simp [isGreen]
    · have hv : v = SignalColor.RED := by
        have := hall (k, v) (List.mem_cons.2 (Or.inl rfl))
        simpa [hk] using this
      subst hv
      have hsel' : lookupA m sel = some SignalColor.GREEN := by
        simpa [lookupA, hk] using hsel
      have hall' : ∀ p ∈ m, p.2 = if p.1 = sel then SignalColor.GREEN else SignalColor.RED :=
        fun p hp => hall p (List.mem_cons.2 (Or.inr hp))
      unfold greenKeys at ih ⊢
      rw [List.filter_cons]
      simpa [isGreen] using ih hnd.2 hsel' hall'

theorem setColors_lookup_not_mem (tl : List (Lane × SignalColor)) {lanes : List Lane}
    (sel : Lane) {k : Lane} (h : k ∉ lanes) :
    lookupA (setColors tl lanes sel) k = lookupA tl k := by
  induction lanes generalizing tl with
  | nil => rfl
  | cons c rest ih =>
    simp only [List.mem_cons, not_or] at h
    rw [show setColors tl (c :: rest) sel
        = setColors (setA tl c (if c = sel then SignalColor.GREEN else SignalColor.RED)) rest sel
        from rfl]
    rw [ih _ h.2]
    exact lookupA_setA_ne _ _ (fun heq => h.1 heq.symm)

theorem setColors_lookup_mem (tl : List (Lane × SignalColor)) {lanes : List Lane}
    (sel : Lane) {k : Lane} (hnd : lanes.Nodup) (hk : k ∈ lanes) :
    lookupA (setColors tl lanes sel) k
      = some (if k = sel then SignalColor.GREEN else SignalColor.RED) := by
  induction lanes generalizing tl with
  | nil => simp at hk
  | cons c rest ih =>
    rw [List.nodup_cons] at hnd
    rw [show setColors tl (c :: rest) sel
        = setColors (setA tl c (if c = sel then SignalColor.GREEN else SignalColor.RED)) rest sel
        from rfl]
    rcases List.mem_cons.1 hk with h1 | h1
    · subst h1
      rw [setColors_lookup_not_mem _ sel hnd.1]
      exact lookupA_setA_self _ _ _
    · exact ih _ hnd.2 h1

theorem mem_keys_setColors {tl : List (Lane × SignalColor)} {lanes : List Lane}
    {sel : Lane} {c : Lane} (h : c ∈ keys (setColors tl lanes sel)) :
    c ∈ keys tl ∨ c ∈ lanes := by
  induction lanes generalizing tl with
  | nil => exact Or.inl h
  | cons l rest ih =>
    rw [show setColors tl (l :: rest) sel
        = setColors (setA tl l (if l = sel then SignalColor.GREEN else SignalColor.RED)) rest sel
        from rfl] at h
    rcases ih h with h1 | h1
    · rcases (mem_keys_setA tl l c _).1 h1 with h2 | h2
      · exact Or.inr (List.mem_cons.2 (Or.inl h2))
      · exact Or.inl h2
    · exact Or.inr (List.mem_cons.2 (Or.inr h1))

theorem nodup_keys_setColors {tl : List (Lane × SignalColor)} {lanes : List Lane}
    {sel : Lane} (h : (keys tl).Nodup) : (keys (setColors tl lanes sel)).Nodup := by
  induction lanes generalizing tl with
  | nil => exact h
  | cons l rest ih =>
    rw [show setColors tl (l :: rest) sel
        = setColors (setA tl l (if l = sel then SignalColor.GREEN else SignalColor.RED)) rest sel
        from rfl]
    exact ih (nodup_keys_setA _ _ h)

theorem setColors_green {tl : List (Lane × SignalColor)} {lanes : List Lane} {sel : Lane}
    (hnd : lanes.Nodup) (hsel : sel ∈ lanes)
    (hdom : ∀ k ∈ keys tl, k ∈ lanes) (hndtl : (keys tl).Nodup) :
    greenKeys (setColors tl lanes sel) = [sel] := by
  have hndc : (keys (setColors tl lanes sel)).Nodup := nodup_keys_setColors hndtl
  apply greenKeys_of_pointwise hndc
  · rw [setColors_lookup_mem tl sel hnd hsel, if_pos rfl]
  · intro p hp
    have hl := (mem_iff_lookupA hndc p).1 hp
    have hmem : p.1 ∈ lanes := by
      rcases mem_keys_setColors (mem_keys_of_lookupA hl) with h1 | h1
      · exact hdom _ h1
      · exact h1
    rw [setColors_lookup_mem tl sel hnd hmem] at hl
    exact (Option.some.inj hl).symm

theorem red_of_greenKeys {m : List (Lane × SignalColor)} {g : Lane}
    (h : greenKeys m = [g]) : ∀ p ∈ m, p.1 ≠ g → p.2 = SignalColor.RED := by
  intro p hp hne
  cases hc : p.2 with
  | RED => rfl
  | GREEN =>
    exfalso
    apply hne
    have hmemf : p ∈ m.filter (fun p => isGreen p.2) :=
      List.mem_filter.2 ⟨hp, by simp [hc, isGreen]⟩
    have : p.1 ∈ greenKeys m := List.mem_map.2 ⟨p, hmemf, rfl⟩
    rw [h] at this
    simpa using this

theorem sameSet_sub {a b : List Lane} (h : sameSet a b = true) : ∀ x ∈ a, x ∈ b := by
  unfold sameSet at h
  rw [Bool.and_eq_true, List.all_eq_true, List.all_eq_true] at h
  intro x hx
  simpa using h.1 x hx

theorem getD_list_mem {l : List Lane} (i : Nat) (d : Lane) (h : l ≠ []) :
    l.getD (i % l.length) d ∈ l := by
  have hlt : i % l.length < l.length := Nat.mod_lt _ (List.length_pos.mpr h)
  rw [List.getD_eq_getElem l d hlt]
  exact List.getElem_mem hlt

theorem argmaxGo_mem (best : Lane) (bestV : Nat) (m : List (Lane × Nat)) :
    argmaxGo best bestV m ∈ best :: keys m := by
  induction m generalizing best bestV with
  | nil => simp [argmaxGo]
  | cons kv rest ih =>
    obtain ⟨k, v⟩ := kv
    rw [show argmaxGo best bestV ((k, v) :: rest)
        = if bestV < v then argmaxGo k v rest else argmaxGo best bestV rest from rfl]
    by_cases hlt : bestV < v
    · rw [if_pos hlt]
      rcases List.mem_cons.1 (ih k v) with h1 | h1
      · rw [h1]
        simp [keys]
      · right
        rw [show keys ((k, v) :: rest) = k :: keys rest from rfl]
        exact List.mem_cons.2 (Or.inr h1)
    · rw [if_neg hlt]
      rcases List.mem_cons.1 (ih best bestV) with h1 | h1
      · rw [h1]
        exact List.mem_cons_self _ _
      · right
        rw [show keys ((k, v) :: rest) = k :: keys rest from rfl]
        exact List.mem_cons.2 (Or.inr h1)

theorem argmaxCounts_mem {m : List (Lane × Nat)} (h : m ≠ []) :
    argmaxCounts m ∈ keys m := by
  match m with
  | [] => exact absurd rfl h
  | (k, v) :: rest =>
    rw [show argmaxCounts ((k, v) :: rest) = argmaxGo k v rest from rfl]
    rcases List.mem_cons.1 (argmaxGo_mem k v rest) with h1 | h1
    · rw [h1]
      simp [keys]
    · rw [show keys ((k, v) :: rest) = k :: keys rest from rfl]
      exact List.mem_cons.2 (Or.inr h1)

theorem selHigh_mem {st : SchedulerState} (h : st.vehicle_counts ≠ []) :
    selHigh st ∈ keys st.vehicle_counts := by
  unfold selHigh
  cases hf : fairnessLane st with
  | some c => exact List.mem_of_find?_eq_some hf
  | none => exact argmaxCounts_mem h

theorem rebuildCycle_counts (st : SchedulerState) :
    (rebuildCycle st).vehicle_counts = st.vehicle_counts := by
  unfold rebuildCycle
  split <;> rfl

theorem rebuildCycle_lights (st : SchedulerState) :
    (rebuildCycle st).traffic_lights = st.traffic_lights := by
  unfold rebuildCycle
  split <;> rfl

theorem rebuildCycle_em (st : SchedulerState) :
    (rebuildCycle st).em_active = st.em_active ∧ (rebuildCycle st).em_cam = st.em_cam := by
  unfold rebuildCycle
  split <;> exact ⟨rfl, rfl⟩

theorem rebuildCycle_eq_of_not {st : SchedulerState} (h : rebuild st = false) :
    rebuildCycle st = st := by
  unfold rebuildCycle
  rw [h]
  rfl

theorem rebuild_false_parts {st : SchedulerState} (h : rebuild st = false) :
    st.lane_cycle ≠ [] ∧ sameSet st.lane_cycle (keys st.vehicle_counts) = true := by
  unfold rebuild at h
  rw [Bool.or_eq_false_iff] at h
  constructor
  · intro hnil
    rw [hnil] at h
    simp at h
  · simpa using h.2

theorem rebuildCycle_cycle_sub {st : SchedulerState} (h : st.vehicle_counts ≠ []) :
    (rebuildCycle st).lane_cycle ≠ [] ∧
      ∀ x ∈ (rebuildCycle st).lane_cycle, x ∈ keys st.vehicle_counts := by
  unfold rebuildCycle
  by_cases hr : rebuild st = true
  · rw [if_pos hr]
    refine ⟨?_, fun x hx => hx⟩
    simpa [keys] using h
  · rw [Bool.not_eq_true] at hr
    rw [if_neg (by rw [hr]; exact Bool.false_ne_true)]
    exact ⟨(rebuild_false_parts hr).1, sameSet_sub (rebuild_false_parts hr).2⟩

theorem selLow_mem {st : SchedulerState} (h : st.lane_cycle ≠ []) :
    selLow st ∈ st.lane_cycle := by
  unfold selLow
  exact getD_list_mem _ _ h

theorem updatePriorities_not_mem (prio : List (Lane × Nat)) {lanes : List Lane}
    (sel : Lane) {l : Lane} (h : l ∉ lanes) :
    getD (updatePriorities prio lanes sel) l 0 = getD prio l 0 := by
  induction lanes generalizing prio with
  | nil => rfl
  | cons c rest ih =>
    simp only [List.mem_cons, not_or] at h
    rw [show updatePriorities prio (c :: rest) sel
        = updatePriorities
            (if c = sel then setA prio c 0 else setA prio c (getD prio c 0 + 1)) rest sel
        from rfl]
    rw [ih _ h.2]
    by_cases hc : c = sel
    · rw [if_pos hc]
      exact getD_setA_ne _ _ _ (fun heq => h.1 heq.symm)
    · rw [if_neg hc]
      exact getD_setA_ne _ _ _ (fun heq => h.1 heq.symm)

theorem updatePriorities_mem (prio : List (Lane × Nat)) {lanes : List Lane}
    (sel : Lane) {l : Lane} (hnd : lanes.Nodup) (hl : l ∈ lanes) :
    getD (updatePriorities prio lanes sel) l 0
      = if l = sel then 0 else getD prio l 0 + 1 := by
  induction lanes generalizing prio with
  | nil => simp at hl
  | cons c rest ih =>
    rw [List.nodup_cons] at hnd
    rw [show updatePriorities prio (c :: rest) sel
        = updatePriorities
            (if c = sel then setA prio c 0 else setA prio c (getD prio c 0 + 1)) rest sel
        from rfl]
    rcases List.mem_cons.1 hl with h1 | h1
    · subst h1
      rw [updatePriorities_not_mem _ sel hnd.1]
      by_cases hc : l = sel
      · rw [if_pos hc, if_pos hc, hc]
        exact getD_setA_self _ _ _ _
      · rw [if_neg hc, if_neg hc]
        exact getD_setA_self _ _ _ _
    · have hlc : c ≠ l := fun heq => hnd.1 (heq ▸ h1)
      rw [ih _ hnd.2 h1]
      by_cases hc : l = sel
      · rw [if_pos hc, if_pos hc]
      · rw [if_neg hc, if_neg hc]
        by_cases hcs : c = sel
        · rw [if_pos hcs, getD_setA_ne _ _ _ hlc]
        · rw [if_neg hcs, getD_setA_ne _ _ _ hlc]

theorem tickNormal_em (st : SchedulerState) :
    (tickNormal st).em_active = st.em_active ∧ (tickNormal st).em_cam = st.em_cam := by
  simp only [tickNormal]
  by_cases hie : st.vehicle_counts.isEmpty = true
  · rw [if_pos hie]
    exact ⟨rfl, rfl⟩
  · rw [if_neg hie]
    by_cases hlow : allLow (rebuildCycle st) = true
    · rw [if_pos hlow]
      exact rebuildCycle_em st
    · rw [if_neg hlow]
      exact rebuildCycle_em st

theorem tickNormal_lights_ex {st : SchedulerState} (hne : st.vehicle_counts ≠ []) :
    ∃ sel, sel ∈ keys st.vehicle_counts ∧
      (tickNormal st).traffic_lights
        = setColors st.traffic_lights (keys st.vehicle_counts) sel := by
  have hie : ¬ st.vehicle_counts.isEmpty = true :=
    fun h => hne (by simpa [List.isEmpty_iff] using h)
  simp only [tickNormal]
  rw [if_neg hie]
  by_cases hlow : allLow (rebuildCycle st) = true
  · rw [if_pos hlow]
    refine ⟨selLow (rebuildCycle st), ?_, ?_⟩
    · obtain ⟨h1, h2⟩ := rebuildCycle_cycle_sub hne
      exact h2 _ (selLow_mem h1)
    · simp [rebuildCycle_lights, rebuildCycle_counts]
  · rw [if_neg hlow]
    refine ⟨selHigh (rebuildCycle st), ?_, ?_⟩
    · have hne1 : (rebuildCycle st).vehicle_counts ≠ [] := by
        rw [rebuildCycle_counts]
        exact hne
      have hm := selHigh_mem hne1
      rwa [rebuildCycle_counts] at hm
    · simp [rebuildCycle_lights, rebuildCycle_counts]

theorem tickNormal_low {st : SchedulerState} (hne : st.vehicle_counts ≠ [])
    (hreb : rebuild st = false) (hlow : allLow st = true) :
    tickNormal st = { st with
      current_index := st.current_index + 1
      lane_priority := setA st.lane_priority (selLow st) 0
      traffic_lights := setColors st.traffic_lights (keys st.vehicle_counts) (selLow st) } := by
  have hie : ¬ st.vehicle_counts.isEmpty = true :=
    fun h => hne (by simpa [List.isEmpty_iff] using h)
  simp only [tickNormal]
  rw [rebuildCycle_eq_of_not hreb, if_neg hie, if_pos hlow]

theorem tickNormal_high {st : SchedulerState} (hne : st.vehicle_counts ≠ [])
    (hreb : rebuild st = false) (hlow : allLow st = false) :
    tickNormal st = { st with
      lane_priority := updatePriorities st.lane_priority (keys st.vehicle_counts) (selHigh st)
      traffic_lights := setColors st.traffic_lights (keys st.vehicle_counts) (selHigh st) } := by
  have hie : ¬ st.vehicle_counts.isEmpty = true :=
    fun h => hne (by simpa [List.isEmpty_iff] using h)
  simp only [tickNormal]
  rw [rebuildCycle_eq_of_not hreb, if_neg hie,
    if_neg (by rw [hlow]; exact Bool.false_ne_true)]

/-- C1: for every scheduler tick (steady state, emergency preemption, and the
expiry tick alike) and for every call to the emergency activation operation
`override_signal`, after the operation completes exactly one lane in the
shared `traffic_lights` table is GREEN and every other lane is RED.
Hypotheses: some occupancy has been published (otherwise the loop idles
without touching the lights), every lane in the color table is a configured
lane, the dict key lists are duplicate-free (true of Python dicts), and an
active override always carries a camera (established by `override_signal`,
the only writer). -/
theorem C1_exactly_one_green (st : SchedulerState) (now : Int) (cam : Lane)
    (hne : st.vehicle_counts ≠ [])
    (hdom : ∀ k ∈ keys st.traffic_lights, k ∈ keys st.vehicle_counts)
    (hndtl : (keys st.traffic_lights).Nodup)
    (hndvc : (keys st.vehicle_counts).Nodup)
    (hem : st.em_active = true → ∃ c, st.em_cam = some c) :
    (∃ g, greenKeys (tick st now).traffic_lights = [g] ∧
      ∀ p ∈ (tick st now).traffic_lights, p.1 ≠ g → p.2 = SignalColor.RED) ∧
    (greenKeys (override_signal st cam now).traffic_lights = [cam] ∧
      ∀ p ∈ (override_signal st cam now).traffic_lights, p.1 ≠ cam →
        p.2 = SignalColor.RED) := by
  have hnorm : ∀ s : SchedulerState, s.vehicle_counts = st.vehicle_counts →
      s.traffic_lights = st.traffic_lights →
      ∃ g, greenKeys (tickNormal s).traffic_lights = [g] ∧
        ∀ p ∈ (tickNormal s).traffic_lights, p.1 ≠ g → p.2 = SignalColor.RED := by
    intro s hs1 hs2
    obtain ⟨sel, hmem, hlights⟩ := @tickNormal_lights_ex s (by rw [hs1]; exact hne)
    rw [hs1, hs2] at hlights
    rw [hs1] at hmem
    have hg := setColors_green hndvc hmem hdom hndtl
    refine ⟨sel, ?_, ?_⟩
    · rw [hlights]
      exact hg
    · rw [hlights]
      exact red_of_greenKeys hg
  constructor
  · unfold tick
    by_cases hact : st.em_active = true
    · rw [if_pos hact]
      by_cases hterm : now - st.em_timestamp < EMERGENCY_HOLD_TIME
      · rw [if_pos hterm]
        obtain ⟨c, hc⟩ := hem hact
        rw [hc]
        refine ⟨c, ?_, ?_⟩
        · show greenKeys (setA (allRed st.traffic_lights) c SignalColor.GREEN) = [c]
          exact greenKeys_setA_allRed _ _
        · show ∀ p ∈ setA (allRed st.traffic_lights) c SignalColor.GREEN,
            p.1 ≠ c → p.2 = SignalColor.RED
          exact red_of_greenKeys (greenKeys_setA_allRed _ _)
      · rw [if_neg hterm]
        exact hnorm _ rfl rfl
    · rw [if_neg hact]
      exact hnorm _ rfl rfl
  · constructor
    · show greenKeys (setA (allRed st.traffic_lights) cam SignalColor.GREEN) = [cam]
      exact greenKeys_setA_allRed _ _
    · show ∀ p ∈ setA (allRed st.traffic_lights) cam SignalColor.GREEN,
        p.1 ≠ cam → p.2 = SignalColor.RED
      exact red_of_greenKeys (greenKeys_setA_allRed _ _)

/-- Witness for C1 at the concrete state `wSched` (two configured lanes, no
emergency): all hypotheses are discharged by evaluation. -/
theorem C1_witness :
    (∃ g, greenKeys (tick wSched 0).traffic_lights = [g] ∧
      ∀ p ∈ (tick wSched 0).traffic_lights, p.1 ≠ g → p.2 = SignalColor.RED) ∧
    (greenKeys (override_signal wSched "CAM1" 0).traffic_lights = ["CAM1"] ∧
      ∀ p ∈ (override_signal wSched "CAM1" 0).traffic_lights, p.1 ≠ "CAM1" →
        p.2 = SignalColor.RED) :=
  C1_exactly_one_green wSched 0 "CAM1" (by decide) (by decide) (by decide) (by decide)
    (fun h => absurd h (by decide))

/-- C2 as stated is false on the code: in `c2State` no emergency is active
and lane B's wait counter already equals `WAIT_LIMIT` at the start of the
tick, but every occupancy is below `LOW_TRAFFIC_THRESHOLD`, so the tick takes
the round-robin branch — which never consults the counters — and turns A
green and B red. -/
theorem C2_counterexample :
    c2State.em_active = false ∧
    WAIT_LIMIT ≤ getD c2State.lane_priority "B" 0 ∧
    lookupA (tick c2State 0).traffic_lights "B" = some SignalColor.RED ∧
    lookupA (tick c2State 0).traffic_lights "A" = some SignalColor.GREEN := by
  decide

/-- C2 amended: on a tick with no active emergency, when the low-traffic
test does NOT fire (some lane's occupancy is at least
`LOW_TRAFFIC_THRESHOLD`) and the lane cycle still matches the lane set (so
the counters are not cleared by a rebuild), the first lane in stable scan
order whose `consecutiveCyclesWithoutGreen` counter is at least `WAIT_LIMIT`
is selected green, regardless of relative occupancy. -/
theorem C2_amended_fairness (st : SchedulerState) (now : Int) (c : Lane)
    (hem : st.em_active = false)
    (hne : st.vehicle_counts ≠ [])
    (hreb : rebuild st = false)
    (hnd : (keys st.vehicle_counts).Nodup)
    (hlow : allLow st = false)
    (hfair : fairnessLane st = some c) :
    lookupA (tick st now).traffic_lights c = some SignalColor.GREEN ∧
    ∀ l ∈ keys st.vehicle_counts, l ≠ c →
      lookupA (tick st now).traffic_lights l = some SignalColor.RED := by
  have htick : tick st now = tickNormal st := by
    unfold tick
    rw [if_neg (by rw [hem]; exact Bool.false_ne_true)]
  rw [htick, tickNormal_high hne hreb hlow]
  have hsel : selHigh st = c := by
    unfold selHigh
    rw [hfair]
  have hmem : c ∈ keys st.vehicle_counts := List.mem_of_find?_eq_some hfair
  constructor
  · show lookupA (setColors st.traffic_lights (keys st.vehicle_counts) (selHigh st)) c = _
    rw [hsel, setColors_lookup_mem _ _ hnd hmem, if_pos rfl]
  · intro l hl hlc
    show lookupA (setColors st.traffic_lights (keys st.vehicle_counts) (selHigh st)) l = _
    rw [hsel, setColors_lookup_mem _ _ hnd hl, if_neg hlc]

/-- Witness for the amended C2 at `wSched`: CAM2 has waited `WAIT_LIMIT`
cycles and is forced green although CAM1 is also configured. -/
theorem C2_amended_witness :
    lookupA (tick wSched 0).traffic_lights "CAM2" = some SignalColor.GREEN :=
  (C2_amended_fairness wSched 0 "CAM2" (by decide) (by decide) (by decide) (by decide)
    (by decide) (by decide)).1

/-- C3 as stated is false on the code: in `c3State` (a non-emergency,
low-traffic round-robin tick) lane B is not selected, yet its counter stays
at 1 instead of incrementing to 2 — the round-robin branch only resets the
selected lane's counter and increments nobody. -/
theorem C3_counterexample :
    c3State.em_active = false ∧
    allLow c3State = true ∧
    lookupA (tick c3State 0).traffic_lights "B" = some SignalColor.RED ∧
    getD c3State.lane_priority "B" 0 = 1 ∧
    getD (tick c3State 0).lane_priority "B" 0 = 1 := by
  decide

/-- C3 amended: on a non-emergency tick with no cycle rebuild, in the
fairness/density (high-traffic) states the selected lane's counter becomes 0
and every other configured lane's counter is its previous value plus 1; in
the round-robin (low-traffic) state the selected lane's counter becomes 0
and every other lane's counter is UNCHANGED. -/
theorem C3_amended_counters (st : SchedulerState) (now : Int)
    (hem : st.em_active = false)
    (hne : st.vehicle_counts ≠ [])
    (hreb : rebuild st = false)
    (hnd : (keys st.vehicle_counts).Nodup) :
    ∀ l ∈ keys st.vehicle_counts,
      (allLow st = false →
        getD (tick st now).lane_priority l 0
          = if l = selHigh st then 0 else getD st.lane_priority l 0 + 1) ∧
      (allLow st = true →
        getD (tick st now).lane_priority l 0
          = if l = selLow st then 0 else getD st.lane_priority l 0) := by
  have htick : tick st now = tickNormal st := by
    unfold tick
    rw [if_neg (by rw [hem]; exact Bool.false_ne_true)]
  intro l hl
  constructor
  · intro hlow
    rw [htick, tickNormal_high hne hreb hlow]
    show getD (updatePriorities st.lane_priority (keys st.vehicle_counts) (selHigh st)) l 0 = _
    exact updatePriorities_mem _ _ hnd hl
  · intro hlow
    rw [htick, tickNormal_low hne hreb hlow]
    show getD (setA st.lane_priority (selLow st) 0) l 0 = _
    by_cases hls : l = selLow st
    · rw [if_pos hls, hls]
      exact getD_setA_self _ _ _ _
    · rw [if_neg hls]
      exact getD_setA_ne _ _ _ (fun heq => hls heq.symm)

/-- Witness for the amended C3 at `wSched` (high-traffic tick, CAM1 not
selected, counter increments from 0 to 1). -/
theorem C3_amended_witness :
    getD (tick wSched 0).lane_priority "CAM1" 0
      = if "CAM1" = selHigh wSched then 0 else getD wSched.lane_priority "CAM1" 0 + 1 :=
  ((C3_amended_counters wSched 0 (by decide) (by decide) (by decide) (by decide)
    "CAM1" (by decide)).1) (by decide)

/-- C4: while the override is active and less than `EMERGENCY_HOLD_TIME` has
elapsed, the tick forces the override camera GREEN and every other entry
RED, leaves every priority counter untouched, and keeps the override active;
on a tick at which the hold time has elapsed, the override is cleared
(`active=False`, `cam_id=None`) and the very same iteration runs the normal
lane selection. -/
theorem C4_emergency_hold (st : SchedulerState) (now : Int) (cam : Lane)
    (hact : st.em_active = true) (hcam : st.em_cam = some cam) :
    (now - st.em_timestamp < EMERGENCY_HOLD_TIME →
      lookupA (tick st now).traffic_lights cam = some SignalColor.GREEN ∧
      (∀ p ∈ (tick st now).traffic_lights, p.1 ≠ cam → p.2 = SignalColor.RED) ∧
      (tick st now).lane_priority = st.lane_priority ∧
      (tick st now).em_active = true) ∧
    (EMERGENCY_HOLD_TIME ≤ now - st.em_timestamp →
      (tick st now).em_active = false ∧ (tick st now).em_cam = none ∧
      tick st now = tickNormal { st with em_active := false, em_cam := none }) := by
  constructor
  · intro hterm
    have htick : tick st now
        = { st with
            traffic_lights := setA (allRed st.traffic_lights) cam SignalColor.GREEN } := by
      unfold tick
      rw [if_pos hact, if_pos hterm, hcam]
    rw [htick]
    refine ⟨?_, ?_, rfl, hact⟩
    · show lookupA (setA (allRed st.traffic_lights) cam SignalColor.GREEN) cam = _
      exact lookupA_setA_self _ _ _
    · show ∀ p ∈ setA (allRed st.traffic_lights) cam SignalColor.GREEN,
        p.1 ≠ cam → p.2 = SignalColor.RED
      exact red_of_greenKeys (greenKeys_setA_allRed _ _)
  · intro hterm
    have htick : tick st now = tickNormal { st with em_active := false, em_cam := none } := by
      unfold tick
      rw [if_pos hact, if_neg (not_lt.mpr hterm)]
    rw [htick]
    exact ⟨(tickNormal_em _).1, (tickNormal_em _).2, rfl⟩

/-- Witness for C4 at `wEmSched` (override on CAM2 activated at t=100):
at t=105 the override still holds CAM2 green with counters untouched, at
t=130 it is cleared and normal selection has run. -/
theorem C4_witness :
    (lookupA (tick wEmSched 105).traffic_lights "CAM2" = some SignalColor.GREEN ∧
      (tick wEmSched 105).lane_priority = wEmSched.lane_priority ∧
      (tick wEmSched 105).em_active = true) ∧
    ((tick wEmSched 130).em_active = false ∧
      tick wEmSched 130 = tickNormal { wEmSched with em_active := false, em_cam := none }) :=
  ⟨⟨((C4_emergency_hold wEmSched 105 "CAM2" (by decide) (by decide)).1 (by decide)).1,
    ((C4_emergency_hold wEmSched 105 "CAM2" (by decide) (by decide)).1 (by decide)).2.2.1,
    ((C4_emergency_hold wEmSched 105 "CAM2" (by decide) (by decide)).1 (by decide)).2.2.2⟩,
   ⟨((C4_emergency_hold wEmSched 130 "CAM2" (by decide) (by decide)).2 (by decide)).1,
    ((C4_emergency_hold wEmSched 130 "CAM2" (by decide) (by decide)).2 (by decide)).2.2⟩⟩

theorem countId_cons (x : Int) (l : List Int) (v : Int) :
    countId (x :: l) v = (if x = v then 1 else 0) + countId l v := by
  unfold countId
  rw [List.filter_cons]
  by_cases h : x = v
  · simp [h, Nat.add_comm]
  · simp [h]

theorem processVehicle_ok_spec {lights : List (Lane × SignalColor)} {cam : Lane}
    {crossing_y : Int} {st : LaneState} {vid cy : Int} {sinkOk : Bool}
    {st' : LaneState} {b : Bool}
    (h : processVehicle lights cam crossing_y st vid cy sinkOk = Except.ok (st', b)) :
    (b = true ∧ vid ∉ st.violated ∧ st'.violated = addId st.violated vid) ∨
    (b = false ∧ st'.violated = st.violated) := by
  simp only [processVehicle] at h
  by_cases h1 : getD st.last_positions vid cy < crossing_y ∧ crossing_y ≤ cy
  · rw [if_pos h1] at h
    by_cases h2 : getD lights cam SignalColor.RED = SignalColor.RED ∧ vid ∉ st.violated
    · rw [if_pos h2] at h
      cases sinkOk with
      | true =>
        rw [if_pos rfl] at h
        injection h with hp
        rw [Prod.mk.injEq] at hp
        obtain ⟨hs, hb⟩ := hp
        exact Or.inl ⟨hb.symm, h2.2, by rw [← hs]⟩
      | false =>
        rw [if_neg (by decide)] at h
        exact Except.noConfusion h
    · rw [if_neg h2] at h
      injection h with hp
      rw [Prod.mk.injEq] at hp
      obtain ⟨hs, hb⟩ := hp
      exact Or.inr ⟨hb.symm, by rw [← hs]⟩
  · rw [if_neg h1] at h
    injection h with hp
    rw [Prod.mk.injEq] at hp
    obtain ⟨hs, hb⟩ := hp
    exact Or.inr ⟨hb.symm, by rw [← hs]⟩

theorem processVehicle_mono {lights : List (Lane × SignalColor)} {cam : Lane}
    {crossing_y : Int} {st : LaneState} {vid cy : Int} {sinkOk : Bool}
    {st' : LaneState} {b : Bool} {v : Int}
    (h : processVehicle lights cam crossing_y st vid cy sinkOk = Except.ok (st', b))
    (hv : v ∈ st.violated) :
    v ∈ st'.violated ∧ (b = true → vid ≠ v) := by
  rcases processVehicle_ok_spec h with ⟨hb, hnin, hvz⟩ | ⟨hb, hvz⟩
  · refine ⟨?_, fun _ heq => hnin (heq ▸ hv)⟩
    rw [hvz]
    unfold addId
    rw [if_neg hnin]
    exact List.mem_append.2 (Or.inl hv)
  · refine ⟨by rw [hvz]; exact hv, fun hbt => ?_⟩
    rw [hb] at hbt
    exact Bool.noConfusion hbt

theorem runVehicles_count (cam : Lane) (crossing_y : Int) (v : Int)
    (trace : List (List (Lane × SignalColor) × Int × Int × Bool)) :
    ∀ st : LaneState,
      (v ∈ st.violated → countId (runVehicles cam crossing_y st trace).2 v = 0) ∧
      countId (runVehicles cam crossing_y st trace).2 v ≤ 1 := by
  induction trace with
  | nil =>
    intro st
    exact ⟨fun _ => rfl, by simp [runVehicles, countId]⟩
  | cons input rest ih =>
    intro st
    obtain ⟨lights, vid, cy, sinkOk⟩ := input
    cases hres : processVehicle lights cam crossing_y st vid cy sinkOk with
    | error st' =>
      constructor
      · intro hv
        simp [runVehicles, hres, countId]
      · simp [runVehicles, hres, countId]
    | ok r =>
      obtain ⟨st', b⟩ := r
      have hspec := processVehicle_ok_spec hres
      constructor
      · intro hv
        have hmono := processVehicle_mono hres hv
        have hrest := (ih st').1 hmono.1
        cases b with
        | false =>
          simp only [runVehicles, hres]
          simpa [countId] using hrest
        | true =>
          have hne : vid ≠ v := hmono.2 rfl
          simp only [runVehicles, hres]
          simp only [if_true, List.singleton_append]
          rw [countId_cons, if_neg hne, hrest]
      · cases b with
        | false =>
          simp only [runVehicles, hres]
          simpa [countId] using (ih st').2
        | true =>
          rcases hspec with ⟨_, hnin, hvz⟩ | ⟨hfalse, _⟩
          · by_cases hveq : vid = v
            · subst hveq
              have hvmem : vid ∈ st'.violated := by
                rw [hvz]
                unfold addId
                rw [if_neg hnin]
                exact List.mem_append.2 (Or.inr (List.mem_singleton.2 rfl))
              have hrest := (ih st').1 hvmem
              simp only [runVehicles, hres]
              simp only [if_true, List.singleton_append]
              rw [countId_cons, if_pos rfl, hrest]
            · simp only [runVehicles, hres]
              simp only [if_true, List.singleton_append]
              rw [countId_cons, if_neg hveq]
              simpa using (ih st').2
          · exact Bool.noConfusion hfalse

/-- C5: over the lifetime of a worker (any sequence of frames, tracked
observations, color-table snapshots and sink outcomes, starting from the
empty per-lane violated set), at most one violation is ever logged for a
given vehicle id in that lane — the per-lane `violated_ids` set gates the
record creation. -/
theorem C5_at_most_one_violation (cam : Lane) (crossing_y : Int)
    (lp : List (Int × Int)) (v : Int)
    (trace : List (List (Lane × SignalColor) × Int × Int × Bool)) :
    countId (runVehicles cam crossing_y ⟨lp, []⟩ trace).2 v ≤ 1 :=
  (runVehicles_count cam crossing_y v trace ⟨lp, []⟩).2

theorem fires_iff (lights : List (Lane × SignalColor)) (cam : Lane) (crossing_y : Int)
    (st : LaneState) (vid cy : Int) :
    fires lights cam crossing_y st vid cy = true ↔
      (getD st.last_positions vid cy < crossing_y ∧ crossing_y ≤ cy ∧
        getD lights cam SignalColor.RED = SignalColor.RED ∧ vid ∉ st.violated) := by
  unfold fires processVehicle
  by_cases h1 : getD st.last_positions vid cy < crossing_y ∧ crossing_y ≤ cy
  · rw [if_pos h1]
    by_cases h2 : getD lights cam SignalColor.RED = SignalColor.RED ∧ vid ∉ st.violated
    · rw [if_pos h2, if_pos rfl]
      constructor
      · intro _
        exact ⟨h1.1, h1.2, h2.1, h2.2⟩
      · intro _
        rfl
    · rw [if_neg h2]
      constructor
      · intro hf
        exact Bool.noConfusion hf
      · rintro ⟨-, -, hc, hv⟩
        exact absurd ⟨hc, hv⟩ h2
  · rw [if_neg h1]
    constructor
    · intro hf
      exact Bool.noConfusion hf
    · rintro ⟨ha, hb, -, -⟩
      exact absurd ⟨ha, hb⟩ h1

theorem fires_first_sighting (lights : List (Lane × SignalColor)) (cam : Lane)
    (crossing_y : Int) (st : LaneState) (vid cy : Int)
    (h : lookupA st.last_positions vid = none) :
    fires lights cam crossing_y st vid cy = false := by
  have hd : getD st.last_positions vid cy = cy := getD_of_lookupA_none _ h
  cases hf : fires lights cam crossing_y st vid cy with
  | false => rfl
  | true =>
    exfalso
    obtain ⟨hlt, hle, -, -⟩ := (fires_iff lights cam crossing_y st vid cy).1 hf
    rw [hd] at hlt
    exact absurd hlt (not_lt.2 hle)

/-- C6: given that the lane's color table entry is `col`, a violation fires
for a tracked vehicle iff its stored last bottom-y is strictly below the
crossing line, its current bottom-y is at or past it, `col` is RED, and the
vehicle is not already flagged in this lane; and a vehicle with no stored
last position (first sighting — the lookup on line 126 defaults to the
current position) never fires in that frame. -/
theorem C6_crossing_iff (lights : List (Lane × SignalColor)) (cam : Lane)
    (crossing_y : Int) (st : LaneState) (vid cy : Int) (col : SignalColor)
    (hcol : lookupA lights cam = some col) :
    (fires lights cam crossing_y st vid cy = true ↔
      (getD st.last_positions vid cy < crossing_y ∧ crossing_y ≤ cy ∧
        col = SignalColor.RED ∧ vid ∉ st.violated)) ∧
    (lookupA st.last_positions vid = none →
      fires lights cam crossing_y st vid cy = false) := by
  have hget : getD lights cam SignalColor.RED = col := getD_eq_of_lookupA _ hcol
  refine ⟨?_, fires_first_sighting lights cam crossing_y st vid cy⟩
  rw [fires_iff, hget]

/-- Witness for C6: with CAM1 RED in the table, vehicle 7 (last y 10,
current y 100, line at 50, unflagged) fires. -/
theorem C6_witness :
    fires [("CAM1", SignalColor.RED)] "CAM1" 50 wLane 7 100 = true :=
  ((C6_crossing_iff [("CAM1", SignalColor.RED)] "CAM1" 50 wLane 7 100
      SignalColor.RED (by decide)).1).2 ⟨by decide, by decide, rfl, by decide⟩

/-- C10: when a lane has no entry in the shared color table (e.g. before the
scheduler's first tick), line 131's `traffic_lights.get(cam_id, "RED")`
defaults to RED, so a crossing vehicle in that lane is flagged even though
no color was ever assigned. -/
theorem C10_missing_color_treated_red (lights : List (Lane × SignalColor)) (cam : Lane)
    (crossing_y : Int) (st : LaneState) (vid cy : Int)
    (habs : lookupA lights cam = none)
    (hlast : getD st.last_positions vid cy < crossing_y)
    (hcur : crossing_y ≤ cy)
    (hnew : vid ∉ st.violated) :
    fires lights cam crossing_y st vid cy = true := by
  have hget : getD lights cam SignalColor.RED = SignalColor.RED :=
    getD_of_lookupA_none _ habs
  exact (fires_iff lights cam crossing_y st vid cy).2 ⟨hlast, hcur, hget, hnew⟩

/-- Witness for C10: empty color table, crossing vehicle fires. -/
theorem C10_witness : fires [] "CAM1" 50 wLane 7 100 = true :=
  C10_missing_color_treated_red [] "CAM1" 50 wLane 7 100 rfl (by decide) (by decide)
    (by decide)

/-- C8 as stated is false on the code: the snapshot write and
`log_violation` calls (lines 137-138) are not wrapped in any `try`, so at
this concrete input the sink failure raises before
`violated_ids[cam_id].add` (line 139) runs — vehicle 7 is NOT marked
flagged — and the exception terminates the worker: the second observation
(vehicle 8, which would otherwise be flagged) is never processed. -/
theorem C8_counterexample :
    processVehicle [("CAM1", SignalColor.RED)] "CAM1" 50 ⟨[(7, 10)], []⟩ 7 100 false
        = Except.error ⟨[(7, 100)], []⟩ ∧
    runVehicles "CAM1" 50 ⟨[(7, 10)], []⟩
        [([("CAM1", SignalColor.RED)], 7, 100, false),
         ([("CAM1", SignalColor.RED)], 8, 100, true)]
        = (⟨[(7, 100)], []⟩, []) := by
  constructor
  · rfl
  · rfl

/-- C8 amended: when the persistence sink fails on a signaled violation, the
vehicle is NOT marked as flagged (the violated set is unchanged) and the
failure escapes the worker — the exception propagates and no further
observations of that worker are processed. -/
theorem C8_amended_sink_failure (lights : List (Lane × SignalColor)) (cam : Lane)
    (crossing_y : Int) (st : LaneState) (vid cy : Int)
    (rest : List (List (Lane × SignalColor) × Int × Int × Bool))
    (hlast : getD st.last_positions vid cy < crossing_y)
    (hcur : crossing_y ≤ cy)
    (hred : getD lights cam SignalColor.RED = SignalColor.RED)
    (hnew : vid ∉ st.violated) :
    processVehicle lights cam crossing_y st vid cy false
        = Except.error ⟨setA st.last_positions vid cy, st.violated⟩ ∧
    runVehicles cam crossing_y st ((lights, vid, cy, false) :: rest)
        = (⟨setA st.last_positions vid cy, st.violated⟩, []) := by
  have hp : processVehicle lights cam crossing_y st vid cy false
      = Except.error ⟨setA st.last_positions vid cy, st.violated⟩ := by
    unfold processVehicle
    rw [if_pos ⟨hlast, hcur⟩, if_pos ⟨hred, hnew⟩, if_neg (by decide)]
  refine ⟨hp, ?_⟩
  simp [runVehicles, hp]

/-- Witness for the amended C8 at the concrete sink-failure input. -/
theorem C8_amended_witness :
    processVehicle [("CAM1", SignalColor.RED)] "CAM1" 50 wLane 7 100 false
        = Except.error ⟨setA wLane.last_positions 7 100, wLane.violated⟩ :=
  (C8_amended_sink_failure [("CAM1", SignalColor.RED)] "CAM1" 50 wLane 7 100 []
    (by decide) (by decide) (by decide) (by decide)).1

/-- C9: when the tracker update raises (and it is only invoked on a
non-empty detection list), the `except` on line 112 catches it, the frame is
treated as having zero tracked vehicles, and line 148 publishes an occupancy
of 0 for the lane; the failure never leaves `process_camera`
(`trackedObjectsOf` is a total function of the tracker outcome). -/
theorem C9_tracker_failure (detections : List (Int × Int × Int × Int × Int)) (e : String)
    (vc : List (Lane × Nat)) (cam : Lane)
    (tr : Except String (List TrackedObj)) (herr : tr = Except.error e) :
    trackedObjectsOf detections tr = [] ∧
    getD (publishCount vc cam (trackedObjectsOf detections tr)) cam 0 = 0 := by
  have h0 : trackedObjectsOf detections tr = [] := by
    unfold trackedObjectsOf
    rw [herr]
    split
    · rfl
    · rfl
  refine ⟨h0, ?_⟩
  rw [h0]
  unfold publishCount
  exact getD_setA_self _ _ _ _

/-- Witness for C9: one detection, tracker raises, occupancy published 0. -/
theorem C9_witness :
    trackedObjectsOf [(0, 0, 10, 10, 1)] (Except.error "boom") = [] ∧
    getD (publishCount [("CAM1", 3)] "CAM1"
        (trackedObjectsOf [(0, 0, 10, 10, 1)] (Except.error "boom"))) "CAM1" 0 = 0 :=
  C9_tracker_failure [(0, 0, 10, 10, 1)] "boom" [("CAM1", 3)] "CAM1"
    (Except.error "boom") rfl

/-- C7 is a code bug: `main.py` (lines 25-29) declares its own module-level
`emergency_override` dict instead of reading the processor's, and nothing
ever writes it, so `/api/emergency-status` reports inactive with 0 remaining
even while a CameraWorker's override is active in the processor module.
Failing input: a worker activates the override for CAM1 at t=100 and the
endpoint is queried at t=101 — the code returns
`{active: false, cam_id: none, remaining_time: 0}` where the claim expects
`{active: true, lane: CAM1, remainingSeconds: 19}` (which is exactly what
the endpoint's own formula yields on the record the worker actually wrote,
as the last conjunct shows). -/
theorem C7_status_query_disconnected :
    (sys_override_signal initSystem "CAM1" 100).sched.em_active = true ∧
    (sys_override_signal initSystem "CAM1" 100).sched.em_cam = some "CAM1" ∧
    get_emergency_status (sys_override_signal initSystem "CAM1" 100).api_override 101
      = ⟨false, none, 0⟩ ∧
    get_emergency_status ⟨true, some "CAM1", 100⟩ 101 = ⟨true, some "CAM1", 19⟩ := by
  refine ⟨rfl, rfl, by decide, by decide⟩

end Traffic

